import Mathlib

/-!
Verification development for the zkSync-era node core: the Block Reverter
(`core/bin/zksync_core/src/block_reverter/mod.rs`), the State Keeper loop
(specified in §4.4 of the system specification; exercised by
`core/bin/zksync_core/src/state_keeper/tests/mod.rs`), and the prover
reporter (`core/bin/prover/src/prover.rs`).

The Rust code is shallowly embedded: machine integers become `Nat`
(the values involved are far below the `u32`/`u256` bounds, so wrap-around
is immaterial to every property below), `expect`/`assert!` panics become an
`Option String` panic message, and the externally visible effects of a run
(store reads, store mutations, SQL deletions, L1 submissions) are recorded
as an explicit event trace so that ordering and abort-before-effect
properties can be stated.
-/

/-! ## Block Reverter: data model -/

/-- Events observable during a `BlockReverter` run.  Each event corresponds to
one call the reverter makes against the relational store (Postgres DAL), the
Merkle-tree RocksDB, or the state-keeper cache RocksDB, in the order the Rust
code issues them. -/
inductive Ev
  /-- `blocks_dal().get_number_of_last_block_executed_on_eth()` -/
  | readLastExecutedOnEth
  /-- `blocks_dal().get_block_state_root(batch)` -/
  | readBlockStateRoot (batch : Nat)
  /-- `tree.revert_logs(target)` on the in-memory Merkle tree -/
  | treeRevertLogs (target : Nat)
  /-- `tree.save()` — persists the reverted Merkle tree to disk -/
  | treeSave
  /-- `sk_cache.rollback(&mut storage, target)` -/
  | skCacheRollback (target : Nat)
  /-- `storage.start_transaction()` -/
  | pgBegin
  /-- `blocks_dal().get_miniblock_range_of_l1_batch(batch)` -/
  | pgGetMiniblockRange (batch : Nat)
  /-- `transactions_dal().reset_transactions_state(mb)` -/
  | pgResetTransactionsState (mb : Nat)
  /-- `events_dal().rollback_events(mb)` -/
  | pgRollbackEvents (mb : Nat)
  /-- `events_dal().rollback_l2_to_l1_logs(mb)` -/
  | pgRollbackL2ToL1Logs (mb : Nat)
  /-- `tokens_dal().rollback_tokens(mb)` -/
  | pgRollbackTokens (mb : Nat)
  /-- `storage_dal().rollback_factory_deps(mb)` -/
  | pgRollbackFactoryDeps (mb : Nat)
  /-- `storage_logs_dal().rollback_storage(mb)` -/
  | pgRollbackStorage (mb : Nat)
  /-- `storage_logs_dal().rollback_storage_logs(mb)` -/
  | pgRollbackStorageLogs (mb : Nat)
  /-- `blocks_dal().delete_l1_batches(batch)` -/
  | pgDeleteL1Batches (batch : Nat)
  /-- `blocks_dal().delete_miniblocks(mb)` -/
  | pgDeleteMiniblocks (mb : Nat)
  /-- `transaction.commit()` -/
  | pgCommit
  deriving DecidableEq, Repr

/-- `L1ExecutedBatchesRevert` from `block_reverter/mod.rs`: whether the
reverter may revert batches already executed on L1. -/
inductive L1ExecutedBatchesRevert
  | Allowed
  | Disallowed
  deriving DecidableEq, Repr

/-- `BlockReverterFlags` from `block_reverter/mod.rs` (bitflags `POSTGRES`,
`TREE`, `SK_CACHE`), embedded as three booleans. -/
structure BlockReverterFlags where
  postgres : Bool
  tree : Bool
  skCache : Bool
  deriving DecidableEq, Repr

/-- Modelled from the spec: the Merkle tree KV store (`ZkSyncTree` of the
`zksync_merkle_tree` crate, which is not under `src/`).  `blockNumber` is
`tree.block_number()`, `rootHash` is `tree.root_hash()`, and `revertedRoot`
abstracts the root hash the tree would have after `revert_logs` to a given
target batch.  Per the spec, reverting the tree to batch `target` leaves the
tree positioned at `target`. -/
structure ZkSyncTree where
  blockNumber : Nat
  rootHash : Nat
  revertedRoot : Nat → Nat

/-- Modelled from the spec: `tree.revert_logs(target)` rewinds the in-memory
tree to the state after batch `target`. -/
def ZkSyncTree.revert_logs (t : ZkSyncTree) (target : Nat) : ZkSyncTree :=
  { t with blockNumber := target, rootHash := t.revertedRoot target }

/-- Modelled from the spec: the state-keeper cache (`RocksdbStorage` of the
`zksync_state` crate, not under `src/`).  `l1BatchNumber` is
`sk_cache.l1_batch_number()`, the number of the next L1 batch the cache
expects. -/
structure RocksdbStorage where
  l1BatchNumber : Nat
  deriving DecidableEq, Repr

/-- Modelled from the spec: `sk_cache.rollback(storage, target)` walks storage
logs backward via the DAL and leaves the cache expecting batch `target + 1`
next. -/
def RocksdbStorage.rollback (_c : RocksdbStorage) (target : Nat) : RocksdbStorage :=
  { l1BatchNumber := target + 1 }

/-- Read-only environment of a reverter run: results of the relational-store
queries the reverter performs, plus existence of the two RocksDB paths. -/
structure ReverterEnv where
  /-- `get_number_of_last_block_executed_on_eth()` (`none` = query failed) -/
  lastExecutedOnEth : Option Nat
  /-- `get_block_state_root(batch)` per batch (`none` = row missing) -/
  blockStateRoot : Nat → Option Nat
  /-- `get_miniblock_range_of_l1_batch(batch)`: (first, last) miniblock -/
  miniblockRange : Nat → Option (Nat × Nat)
  /-- `Path::new(new_merkle_tree_ssd_path).exists()` -/
  treePathExists : Bool
  /-- `Path::new(state_keeper_db_path).exists()` -/
  skCachePathExists : Bool

/-- Mutable on-disk state the reverter's RocksDB rollbacks can change. -/
structure ReverterState where
  tree : ZkSyncTree
  skCache : RocksdbStorage

/-- Result of a reverter run: the trace of store operations actually
performed, the resulting on-disk state, and the panic message if the run
aborted (`assert!`/`expect` failure). -/
structure Outcome where
  events : List Ev
  state : ReverterState
  panicMsg : Option String

/-! ## Block Reverter: operations (from `block_reverter/mod.rs`) -/

/-- `BlockReverter::rollback_new_tree` (lines 186–204).  Pure function of the
target batch, the root hash previously fetched from Postgres, and the
on-disk tree.  Returns the events performed, the resulting on-disk tree
(unchanged unless `tree.save()` ran), and a panic message if the root-hash
assertion failed. -/
def rollback_new_tree (last : Nat) (storageRootHash : Nat) (tree : ZkSyncTree) :
    List Ev × ZkSyncTree × Option String :=
  if tree.blockNumber ≤ last then
    ([], tree, none)
  else
    let reverted := tree.revert_logs last
    if reverted.rootHash = storageRootHash then
      ([Ev.treeRevertLogs last, Ev.treeSave], reverted, none)
    else
      ([Ev.treeRevertLogs last], tree,
        some "assertion failed: tree.root_hash() == storage_root_hash")

/-- `BlockReverter::rollback_state_keeper_cache` (lines 207–219): rolls the
cache back iff its batch number exceeds `last + 1`. -/
def rollback_state_keeper_cache (last : Nat) (c : RocksdbStorage) :
    List Ev × RocksdbStorage :=
  if last + 1 < c.l1BatchNumber then
    ([Ev.skCacheRollback last], c.rollback last)
  else
    ([], c)

/-- The tree half of `BlockReverter::rollback_rocks_dbs` (lines 152–174):
if the `TREE` flag is set, fetch the target root hash from Postgres
(`expect`ing it to exist), then — only if the tree path exists — run
`rollback_new_tree`.  Acts on the tree store alone. -/
def tree_phase (env : ReverterEnv) (last : Nat) (rollbackTree : Bool)
    (tree : ZkSyncTree) : List Ev × ZkSyncTree × Option String :=
  if rollbackTree then
    match env.blockStateRoot last with
    | none =>
        ([Ev.readBlockStateRoot last], tree,
          some "failed to fetch root hash for target block")
    | some root =>
        if env.treePathExists then
          let r := rollback_new_tree last root tree
          (Ev.readBlockStateRoot last :: r.1, r.2.1, r.2.2)
        else ([Ev.readBlockStateRoot last], tree, none)
  else ([], tree, none)

/-- The state-keeper-cache half of `BlockReverter::rollback_rocks_dbs`
(lines 176–183): if the `SK_CACHE` flag is set, `assert!` the cache path
exists, then run `rollback_state_keeper_cache`.  Acts on the cache store
alone. -/
def sk_cache_phase (env : ReverterEnv) (last : Nat) (rollbackSkCache : Bool)
    (cache : RocksdbStorage) : List Ev × RocksdbStorage × Option String :=
  if rollbackSkCache then
    if env.skCachePathExists then
      let r := rollback_state_keeper_cache last cache
      (r.1, r.2, none)
    else ([], cache, some "Path with state keeper cache DB doesn't exist")
  else ([], cache, none)

/-- `BlockReverter::rollback_rocks_dbs` (lines 146–184): the tree rollback
(fetch root hash from Postgres, probe the tree path, revert) followed — only
if the tree half did not panic — by the state-keeper-cache rollback (path
existence `assert!`, then revert). -/
def rollback_rocks_dbs (env : ReverterEnv) (last : Nat)
    (rollbackTree rollbackSkCache : Bool) (st : ReverterState) : Outcome :=
  let tr := tree_phase env last rollbackTree st.tree
  match tr.2.2 with
  | some m => ⟨tr.1, { st with tree := tr.2.1 }, some m⟩
  | none =>
      let cr := sk_cache_phase env last rollbackSkCache st.skCache
      ⟨tr.1 ++ cr.1, ⟨tr.2.1, cr.2.1⟩, cr.2.2⟩

/-- `BlockReverter::rollback_postgres` (lines 222–280): one transaction that
looks up the last miniblock of the kept batch and then issues the nine
rollback statements in source order, committing at the end.  Returns the
events and a panic message if the miniblock-range `expect` failed. -/
def rollback_postgres (env : ReverterEnv) (last : Nat) :
    List Ev × Option String :=
  match env.miniblockRange last with
  | none =>
      ([Ev.pgBegin, Ev.pgGetMiniblockRange last],
        some "L1 batch should contain at least one miniblock")
  | some (_, lastMb) =>
      ([Ev.pgBegin, Ev.pgGetMiniblockRange last,
        Ev.pgResetTransactionsState lastMb,
        Ev.pgRollbackEvents lastMb,
        Ev.pgRollbackL2ToL1Logs lastMb,
        Ev.pgRollbackTokens lastMb,
        Ev.pgRollbackFactoryDeps lastMb,
        Ev.pgRollbackStorage lastMb,
        Ev.pgRollbackStorageLogs lastMb,
        Ev.pgDeleteL1Batches last,
        Ev.pgDeleteMiniblocks lastMb,
        Ev.pgCommit], none)

/-- The store rollbacks of `rollback_db` after the finality check
(lines 138–143): RocksDB stores first, then Postgres if flagged. -/
def rollback_stores (env : ReverterEnv) (last : Nat)
    (flags : BlockReverterFlags) (st : ReverterState) : Outcome :=
  let o := rollback_rocks_dbs env last flags.tree flags.skCache st
  match o.panicMsg with
  | some m => ⟨o.events, o.state, some m⟩
  | none =>
      if flags.postgres then
        let r := rollback_postgres env last
        ⟨o.events ++ r.1, o.state, r.2⟩
      else o

/-- `BlockReverter::rollback_db` (lines 113–144): in `Disallowed` mode first
read the last L1-executed batch and `assert!` that the target keeps it; then
perform the store rollbacks. -/
def rollback_db (env : ReverterEnv) (mode : L1ExecutedBatchesRevert)
    (last : Nat) (flags : BlockReverterFlags) (st : ReverterState) : Outcome :=
  match mode with
  | .Allowed => rollback_stores env last flags st
  | .Disallowed =>
      match env.lastExecutedOnEth with
      | none =>
          ⟨[Ev.readLastExecutedOnEth], st, some "failed to get last executed L1 block"⟩
      | some lastExec =>
          if last < lastExec then
            ⟨[Ev.readLastExecutedOnEth], st, some "Attempt to revert already executed blocks"⟩
          else
            let o := rollback_stores env last flags st
            ⟨Ev.readLastExecutedOnEth :: o.events, o.state, o.panicMsg⟩

/-! ## Block Reverter: L1 revert transaction
(`BlockReverter::send_ethereum_revert_transaction`, lines 283–342) -/

/-- Call data sent to L1, as produced by
`zksync_contract().function("revertBlocks").encode_input(...)`. -/
inductive CallData
  | revertBlocks (lastL1BatchToKeep : Nat)
  deriving DecidableEq, Repr

/-- `TransactionParameters` as filled in by
`send_ethereum_revert_transaction` (lines 314–323).  Addresses and wei
amounts are embedded as `Nat`. -/
structure TransactionParameters where
  toAddr : Nat
  data : CallData
  chainId : Nat
  nonce : Nat
  maxPriorityFeePerGas : Nat
  maxFeePerGas : Nat
  gas : Nat
  deriving DecidableEq, Repr

/-- An L1 transaction receipt; `status` mirrors web3's `Option<U64>`. -/
structure TransactionReceipt where
  status : Option Nat
  deriving DecidableEq, Repr

/-- The parts of `BlockReverterEthConfig` that
`send_ethereum_revert_transaction` reads. -/
structure EthConfig where
  validatorTimelockAddr : Nat
  deriving DecidableEq, Repr

/-- Read-only L1 environment of a revert-transaction run: the chain id, the
pending block's base fee, and the successive answers of
`transaction_receipt` (one entry per poll iteration; `none` = no receipt
yet). -/
structure EthEnv where
  chainId : Nat
  pendingBaseFee : Nat
  receipts : List (Option TransactionReceipt)

/-- Events observable during `send_ethereum_revert_transaction`. -/
inductive EthEv
  /-- `sign_transaction` + `send_raw_transaction` of the given parameters -/
  | submit (tx : TransactionParameters)
  /-- `sleep(Duration::from_secs(n))` between receipt polls -/
  | sleepSecs (n : Nat)
  deriving DecidableEq, Repr

/-- Result of the receipt-polling loop. -/
inductive PollResult
  /-- The supplied receipt stream was exhausted with no receipt: the loop is
  still polling. -/
  | pending
  /-- A receipt with `status == 1` arrived; the function returned. -/
  | ok
  /-- A receipt arrived whose status differs from 1; `assert_eq!` panicked. -/
  | panicked (msg : String)
  deriving DecidableEq, Repr

/-- The polling loop of `send_ethereum_revert_transaction` (lines 332–341):
poll `transaction_receipt`; on no receipt sleep 5 s and retry; on a receipt
assert `status == Some(1)` and return. -/
def pollForReceipt : List (Option TransactionReceipt) → List EthEv × PollResult
  | [] => ([], PollResult.pending)
  | none :: rest =>
      (EthEv.sleepSecs 5 :: (pollForReceipt rest).1, (pollForReceipt rest).2)
  | some receipt :: _ =>
      if receipt.status = some 1 then ([], PollResult.ok)
      else ([], PollResult.panicked "revert transaction failed")

/-- `BlockReverter::send_ethereum_revert_transaction` (lines 283–342): build
the `revertBlocks` call to the validator timelock with EIP-1559 fees
`(priority_fee, base_fee + priority_fee)`, sign and submit it, then poll the
receipt every 5 s.  (Local signing and the HTTP transport are opaque I/O;
the model records the signed-and-submitted parameters as a `submit`
event.) -/
def send_ethereum_revert_transaction (cfg : EthConfig) (env : EthEnv)
    (lastL1BatchToKeep : Nat) (priorityFeePerGas : Nat) (nonce : Nat) :
    List EthEv × PollResult :=
  let tx : TransactionParameters :=
    { toAddr := cfg.validatorTimelockAddr
      data := CallData.revertBlocks lastL1BatchToKeep
      chainId := env.chainId
      nonce := nonce
      maxPriorityFeePerGas := priorityFeePerGas
      maxFeePerGas := env.pendingBaseFee + priorityFeePerGas
      gas := 5000000 }
  (EthEv.submit tx :: (pollForReceipt env.receipts).1,
    (pollForReceipt env.receipts).2)

/-! ## Prover reporter (`core/bin/prover/src/prover.rs`) -/

/-- Row of the `prover_jobs` table as far as the reporter reads it
(`ProverJobMetadata.circuit_type`). -/
structure ProverJobMetadata where
  circuitType : String
  deriving DecidableEq, Repr

/-- The prover database: `get_prover_job_by_id`. -/
structure ProverDb where
  jobs : Nat → Option ProverJobMetadata

/-- Events observable during `ProverReporter::send_report`. -/
inductive ProverEv
  /-- `prover_dal().get_prover_job_by_id(id)` -/
  | getJob (id : Nat)
  /-- `connection.start_transaction()` -/
  | beginTx
  /-- `prover_dal().save_proof(id, duration, serialized, processed_by)` -/
  | saveProof (id : Nat) (serialized : List Nat) (processedBy : String)
  /-- `transaction.commit()` -/
  | commitTx
  /-- `prover_dal().save_proof_error(id, error, max_attempts)` -/
  | saveProofError (id : Nat) (error : String) (maxAttempts : Nat)
  deriving DecidableEq, Repr

/-- The `JobResult` variants whose handling touches the prover database
(`Failure` and `ProofGenerated`); the remaining variants of
`prover_service::JobResult` only emit metrics or object-store uploads and
are outside this model.  The proof payload is embedded as an opaque `Nat`. -/
inductive JobResult
  | Failure (id : Nat) (error : String)
  | ProofGenerated (id : Nat) (duration : Nat) (proof : Nat) (index : Nat)
  deriving DecidableEq, Repr

/-- `ProverReporter::handle_successful_proof_generation` (lines 42–81):
`get_circuit_type` first looks the job up (panicking if absent), then a
transaction saves the serialized proof, looks the job up again
(`unwrap_or_else(|| panic!...)`), and commits.  `serialize` abstracts
`bincode::serialize`. -/
def handle_successful_proof_generation (serialize : Nat → List Nat)
    (db : ProverDb) (processedBy : String) (jobId : Nat) (proof : Nat) :
    List ProverEv × Option String :=
  match db.jobs jobId with
  | none => ([ProverEv.getJob jobId], some "No job with such id exists")
  | some _ =>
      match db.jobs jobId with
      | none =>
          ([ProverEv.getJob jobId, ProverEv.beginTx,
            ProverEv.saveProof jobId (serialize proof) processedBy,
            ProverEv.getJob jobId], some "No job with such id exists")
      | some _ =>
          ([ProverEv.getJob jobId, ProverEv.beginTx,
            ProverEv.saveProof jobId (serialize proof) processedBy,
            ProverEv.getJob jobId, ProverEv.commitTx], none)

/-- `ProverReporter::send_report` (lines 98–243), restricted to the two
database-touching variants: `Failure` calls `save_proof_error` with the
configured `max_attempts`; `ProofGenerated` delegates to
`handle_successful_proof_generation`. -/
def send_report (serialize : Nat → List Nat) (db : ProverDb)
    (maxAttempts : Nat) (processedBy : String) (report : JobResult) :
    List ProverEv × Option String :=
  match report with
  | JobResult.Failure id error =>
      ([ProverEv.saveProofError id error maxAttempts], none)
  | JobResult.ProofGenerated id _duration proof _index =>
      handle_successful_proof_generation serialize db processedBy id proof

/-! ## State Keeper loop

Modelled from the spec: the keeper loop itself
(`core/bin/zksync_core/src/state_keeper/keeper.rs` and companions) is not
under `src/`; only its test suite is.  The model below follows §4.4 of the
specification, specialised to the configuration of the cited test
`bootloader_tip_out_of_gas_flow` (a `SlotsCriterion` conditional sealer):
transactions are identified by `Nat` ids, each fetch from the I/O port
carries the VM outcome of executing that transaction, a `Success` outcome
includes the transaction in the current batch (sealing when the slot count
is reached), a `BootloaderTipOutOfGas` outcome rolls the transaction back
and seals the batch without it (the I/O port then re-delivers it as the
next fetch — a constraint on legal fetch lists), and a `Rejected` outcome
drops the transaction. -/

/-- VM outcome of one `execute_next_tx` call (§3 `ExecutionResult`). -/
inductive ExecOutcome
  | success
  | tipOutOfGas
  | rejected
  deriving DecidableEq, Repr

/-- State-keeper state: the transactions of the currently open batch (in
execution order), the sealed batches so far, and the trace of all
`execute_next_tx` calls made. -/
structure KState where
  cur : List Nat
  sealedBatches : List (List Nat)
  execs : List Nat
  deriving DecidableEq, Repr

/-- Modelled from the spec (§4.4 Running): process one fetched transaction.
`slots` is `StateKeeperConfig.transaction_slots`. -/
def keeperStep (slots : Nat) (s : KState) (f : Nat × ExecOutcome) : KState :=
  let s1 : KState := { s with execs := s.execs ++ [f.1] }
  match f.2 with
  | ExecOutcome.rejected => s1
  | ExecOutcome.tipOutOfGas =>
      { s1 with cur := [], sealedBatches := s1.sealedBatches ++ [s1.cur] }
  | ExecOutcome.success =>
      let cur := s1.cur ++ [f.1]
      if slots ≤ cur.length then
        { s1 with cur := [], sealedBatches := s1.sealedBatches ++ [cur] }
      else
        { s1 with cur := cur }

/-- Modelled from the spec: run the keeper over a list of fetches. -/
def keeperSteps (slots : Nat) (fetches : List (Nat × ExecOutcome)) (s : KState) : KState :=
  fetches.foldl (keeperStep slots) s

/-- Modelled from the spec (§4.4 SealingBatch): the unconditional batch seal
closing the scenario — the final open batch is sealed (as in the cited test,
whose scenario ends with `batch_sealed`). -/
def keeperFinish (s : KState) : KState :=
  { s with cur := [], sealedBatches := s.sealedBatches ++ [s.cur] }

/-- Modelled from the spec: a complete keeper run over a fetch list, ending
with the final batch seal. -/
def keeperRun (slots : Nat) (fetches : List (Nat × ExecOutcome)) (s : KState) : KState :=
  keeperFinish (keeperSteps slots fetches s)

/-- The keeper's initial state: empty batch, nothing sealed, no executions. -/
def keeperInit : KState := ⟨[], [], []⟩

/-! ## Miniblock sequence

Modelled from the spec: `UpdatesManager::seal_miniblock` (§4.2) "increments
the miniblock number, starts a fresh miniblock carrying a new timestamp
provided by the I/O port", and the fictive trailing miniblock at batch seal
likewise advances the number and takes a fresh port timestamp (§4.4
SealingBatch); `current_miniblock_timestamp` (§4.5) returns values that are
strictly greater on each call.  The code realising this
(`state_keeper/updates`, `state_keeper/io`) is not under `src/`; only the
test `time_is_monotonic` is. -/

/-- A produced miniblock: its number and its timestamp. -/
structure Miniblock where
  number : Nat
  timestamp : Nat
  deriving DecidableEq, Repr

/-- Modelled from the spec: the sequence of miniblocks produced by successive
seals (fictive ones included), starting at number `n`, with the i-th seal
taking the i-th timestamp supplied by the I/O port. -/
def mkMiniblocks : Nat → List Nat → List Miniblock
  | _, [] => []
  | n, t :: ts => ⟨n, t⟩ :: mkMiniblocks (n + 1) ts

/-! ## Event classification -/

/-- Does this event belong to the Postgres rollback (`rollback_postgres`)? -/
def Ev.isPgEv : Ev → Bool
  | Ev.pgBegin => true
  | Ev.pgGetMiniblockRange _ => true
  | Ev.pgResetTransactionsState _ => true
  | Ev.pgRollbackEvents _ => true
  | Ev.pgRollbackL2ToL1Logs _ => true
  | Ev.pgRollbackTokens _ => true
  | Ev.pgRollbackFactoryDeps _ => true
  | Ev.pgRollbackStorage _ => true
  | Ev.pgRollbackStorageLogs _ => true
  | Ev.pgDeleteL1Batches _ => true
  | Ev.pgDeleteMiniblocks _ => true
  | Ev.pgCommit => true
  | _ => false

/-- Does this event belong to the state-keeper-cache rollback? -/
def Ev.isSkCacheEv : Ev → Bool
  | Ev.skCacheRollback _ => true
  | _ => false

/-! ## Sample values (used by witness theorems) -/

/-- A sample environment: batch 5 is the last executed on L1, every batch has
root hash 77, batch `b` spans miniblocks `(2*b, 2*b+1)`, both RocksDB paths
exist. -/
def sampleEnv : ReverterEnv :=
  { lastExecutedOnEth := some 5
    blockStateRoot := fun _ => some 77
    miniblockRange := fun b => some (2 * b, 2 * b + 1)
    treePathExists := true
    skCachePathExists := true }

/-- A sample tree at block 9 whose revert always lands on root hash 77. -/
def sampleTree : ZkSyncTree := ⟨9, 50, fun _ => 77⟩

/-- A sample on-disk state: the sample tree plus a cache at batch 9. -/
def sampleState : ReverterState := ⟨sampleTree, ⟨9⟩⟩

/-! ## Claim theorems: Block Reverter -/

/-- Claim C1: in `Disallowed` mode, when `last_l1_batch_to_keep` is strictly
below the last batch executed on L1, `rollback_db` aborts fatally having
performed only the finality read — no store is modified; in `Allowed` mode
the finality check is not performed (the run equals the plain store
rollbacks and does not depend on the last-executed counter), so the
rollback proceeds for any target. -/
theorem rollback_db_finality_guard (env : ReverterEnv) (last : Nat)
    (flags : BlockReverterFlags) (st : ReverterState) :
    (∀ lastExec, env.lastExecutedOnEth = some lastExec → last < lastExec →
      rollback_db env L1ExecutedBatchesRevert.Disallowed last flags st =
        ⟨[Ev.readLastExecutedOnEth], st,
          some "Attempt to revert already executed blocks"⟩)
    ∧ (rollback_db env L1ExecutedBatchesRevert.Allowed last flags st =
        rollback_stores env last flags st)
    ∧ (∀ o, rollback_db { env with lastExecutedOnEth := o }
          L1ExecutedBatchesRevert.Allowed last flags st =
        rollback_db env L1ExecutedBatchesRevert.Allowed last flags st) := by
  refine ⟨?_, rfl, fun o => rfl⟩
  intro lastExec h hlt
  simp [rollback_db, h, hlt]

/-- Witness for C1 at a concrete input: reverting to batch 3 while batch 5 is
executed on L1 aborts with the finality message and an untouched state. -/
theorem rollback_db_finality_guard_witness :
    rollback_db sampleEnv L1ExecutedBatchesRevert.Disallowed 3
        ⟨true, true, true⟩ sampleState =
      ⟨[Ev.readLastExecutedOnEth], sampleState,
        some "Attempt to revert already executed blocks"⟩ :=
  (rollback_db_finality_guard sampleEnv 3 ⟨true, true, true⟩ sampleState).1
    5 rfl (by decide)

/-- Every event emitted by `rollback_new_tree` is a tree event: neither a
cache nor a Postgres event. -/
theorem rollback_new_tree_events_class (last root : Nat) (tree : ZkSyncTree) :
    ∀ e ∈ (rollback_new_tree last root tree).1,
      e.isSkCacheEv = false ∧ e.isPgEv = false := by
  intro e he
  simp only [rollback_new_tree] at he
  split at he
  · simp at he
  · split at he
    · simp at he
      rcases he with rfl | rfl <;> exact ⟨rfl, rfl⟩
    · simp at he
      subst he; exact ⟨rfl, rfl⟩

/-- Every event emitted by the tree phase is a tree-phase event: neither a
cache nor a Postgres event. -/
theorem tree_phase_events_class (env : ReverterEnv) (last : Nat) (t : Bool)
    (tree : ZkSyncTree) :
    ∀ e ∈ (tree_phase env last t tree).1,
      e.isSkCacheEv = false ∧ e.isPgEv = false := by
  intro e he
  simp only [tree_phase] at he
  split at he
  · split at he
    · simp at he
      subst he; exact ⟨rfl, rfl⟩
    · split at he
      · simp at he
        rcases he with rfl | he
        · exact ⟨rfl, rfl⟩
        · exact rollback_new_tree_events_class _ _ _ e he
      · simp at he
        subst he; exact ⟨rfl, rfl⟩
  · simp at he

/-- Every event emitted by the cache phase is a cache event. -/
theorem sk_cache_phase_events_class (env : ReverterEnv) (last : Nat) (c : Bool)
    (cache : RocksdbStorage) :
    ∀ e ∈ (sk_cache_phase env last c cache).1, e.isSkCacheEv = true := by
  intro e he
  simp only [sk_cache_phase, rollback_state_keeper_cache] at he
  split at he
  · split at he
    · split at he
      · simp at he
        subst he; rfl
      · simp at he
    · simp at he
  · simp at he

/-- Every event emitted by `rollback_postgres` is a Postgres event. -/
theorem rollback_postgres_events_class (env : ReverterEnv) (last : Nat) :
    ∀ e ∈ (rollback_postgres env last).1, e.isPgEv = true := by
  intro e he
  simp only [rollback_postgres] at he
  split at he
  · simp at he
    rcases he with rfl | rfl <;> rfl
  · simp at he
    rcases he with rfl | rfl | rfl | rfl | rfl | rfl | rfl | rfl | rfl | rfl | rfl | rfl <;> rfl

/-- The store rollbacks decompose into a tree segment, a cache segment and a
Postgres segment, in that order. -/
theorem rollback_stores_order (env : ReverterEnv) (last : Nat)
    (flags : BlockReverterFlags) (st : ReverterState) :
    ∃ p1 p2 p3,
      (rollback_stores env last flags st).events = p1 ++ p2 ++ p3
      ∧ (∀ e ∈ p1, e.isSkCacheEv = false ∧ e.isPgEv = false)
      ∧ (∀ e ∈ p2, e.isSkCacheEv = true)
      ∧ (∀ e ∈ p3, e.isPgEv = true) := by
  simp only [rollback_stores, rollback_rocks_dbs]
  cases hp : (tree_phase env last flags.tree st.tree).2.2 with
  | some m =>
      simp only [hp]
      exact ⟨(tree_phase env last flags.tree st.tree).1, [], [],
        by simp, tree_phase_events_class env last flags.tree st.tree,
        by simp, by simp⟩
  | none =>
      simp only [hp]
      by_cases hpg : flags.postgres
      · cases hq : (sk_cache_phase env last flags.skCache st.skCache).2.2 with
        | some m2 =>
            simp only [hq, hpg, if_true]
            exact ⟨(tree_phase env last flags.tree st.tree).1,
              (sk_cache_phase env last flags.skCache st.skCache).1, [],
              by simp, tree_phase_events_class env last flags.tree st.tree,
              sk_cache_phase_events_class env last flags.skCache st.skCache,
              by simp⟩
        | none =>
            simp only [hq, hpg, if_true]
            exact ⟨(tree_phase env last flags.tree st.tree).1,
              (sk_cache_phase env last flags.skCache st.skCache).1,
              (rollback_postgres env last).1,
              by simp, tree_phase_events_class env last flags.tree st.tree,
              sk_cache_phase_events_class env last flags.skCache st.skCache,
              rollback_postgres_events_class env last⟩
      · simp only [hpg, if_false]
        refine ⟨(tree_phase env last flags.tree st.tree).1,
          (sk_cache_phase env last flags.skCache st.skCache).1, [],
          ?_, tree_phase_events_class env last flags.tree st.tree,
          sk_cache_phase_events_class env last flags.skCache st.skCache,
          by simp⟩
        cases hq : (sk_cache_phase env last flags.skCache st.skCache).2.2 <;>
          simp [hq]

/-- Claim C2: with all three flags set, the event trace of `rollback_db`
decomposes into an initial segment free of cache and Postgres events (the
finality read and the Merkle-tree rollback), then a segment of cache events
only, then a segment of Postgres events only: the Postgres rollback never
starts before both RocksDB rollbacks have completed, and the cache rollback
never starts before the tree rollback has completed. -/
theorem rollback_db_store_order (env : ReverterEnv)
    (mode : L1ExecutedBatchesRevert) (last : Nat) (st : ReverterState) :
    ∃ p1 p2 p3,
      (rollback_db env mode last ⟨true, true, true⟩ st).events = p1 ++ p2 ++ p3
      ∧ (∀ e ∈ p1, e.isSkCacheEv = false ∧ e.isPgEv = false)
      ∧ (∀ e ∈ p2, e.isSkCacheEv = true)
      ∧ (∀ e ∈ p3, e.isPgEv = true) := by
  obtain ⟨p1, p2, p3, hev, h1, h2, h3⟩ :=
    rollback_stores_order env last ⟨true, true, true⟩ st
  cases mode with
  | Allowed => exact ⟨p1, p2, p3, hev, h1, h2, h3⟩
  | Disallowed =>
      cases hle : env.lastExecutedOnEth with
      | none =>
          refine ⟨[Ev.readLastExecutedOnEth], [], [], ?_, ?_, by simp, by simp⟩
          · simp [rollback_db, hle]
          · intro e he
            simp at he
            subst he; exact ⟨rfl, rfl⟩
      | some lastExec =>
          by_cases hlt : last < lastExec
          · refine ⟨[Ev.readLastExecutedOnEth], [], [], ?_, ?_, by simp, by simp⟩
            · simp [rollback_db, hle, hlt]
            · intro e he
              simp at he
              subst he; exact ⟨rfl, rfl⟩
          · refine ⟨Ev.readLastExecutedOnEth :: p1, p2, p3, ?_, ?_, h2, h3⟩
            · simp only [rollback_db, hle, hlt, if_false, List.cons_append]
              exact congrArg _ hev
            · intro e he
              rcases List.mem_cons.mp he with rfl | he
              · exact ⟨rfl, rfl⟩
              · exact h1 e he

/-- Witness for C2: the decomposition at a concrete run (target 7, all
flags, `Disallowed` mode with batch 5 executed on L1). -/
theorem rollback_db_store_order_witness :
    ∃ p1 p2 p3,
      (rollback_db sampleEnv L1ExecutedBatchesRevert.Disallowed 7
          ⟨true, true, true⟩ sampleState).events = p1 ++ p2 ++ p3
      ∧ (∀ e ∈ p1, e.isSkCacheEv = false ∧ e.isPgEv = false)
      ∧ (∀ e ∈ p2, e.isSkCacheEv = true)
      ∧ (∀ e ∈ p3, e.isPgEv = true) :=
  rollback_db_store_order sampleEnv L1ExecutedBatchesRevert.Disallowed 7
    sampleState

/-- Claim C3: with the `TREE` flag set (and the tree path present), the tree
rollback fetches the target root hash from the relational store and is
governed by `rollback_new_tree`: a tree at or below the target is left
unchanged; otherwise `revert_logs(target)` is applied and the result is
persisted exactly when its root hash equals the stored one, the operation
aborting fatally — without persisting — on a mismatch. -/
theorem rollback_new_tree_spec (env : ReverterEnv) (last root : Nat)
    (tree : ZkSyncTree) (st : ReverterState) :
    (tree.blockNumber ≤ last → rollback_new_tree last root tree = ([], tree, none))
    ∧ (last < tree.blockNumber →
        ((tree.revert_logs last).rootHash = root →
          rollback_new_tree last root tree =
            ([Ev.treeRevertLogs last, Ev.treeSave], tree.revert_logs last, none))
        ∧ ((tree.revert_logs last).rootHash ≠ root →
          rollback_new_tree last root tree =
            ([Ev.treeRevertLogs last], tree,
              some "assertion failed: tree.root_hash() == storage_root_hash")))
    ∧ (env.blockStateRoot last = some root → env.treePathExists = true →
        rollback_rocks_dbs env last true false st =
          ⟨Ev.readBlockStateRoot last :: (rollback_new_tree last root st.tree).1,
            ⟨(rollback_new_tree last root st.tree).2.1, st.skCache⟩,
            (rollback_new_tree last root st.tree).2.2⟩) := by
  refine ⟨?_, ?_, ?_⟩
  · intro h
    simp [rollback_new_tree, h]
  · intro h
    have h' : ¬tree.blockNumber ≤ last := by omega
    refine ⟨?_, ?_⟩
    · intro hr
      simp [rollback_new_tree, h', hr]
    · intro hr
      simp [rollback_new_tree, h', hr]
  · intro hroot hpath
    simp only [rollback_rocks_dbs, tree_phase, hroot, hpath, if_true]
    cases hp : (rollback_new_tree last root st.tree).2.2 with
    | some m => simp [hp]
    | none => simp [hp, sk_cache_phase]

/-- Witness for C3: on the sample state (tree at block 9, target 3, stored
root 77, reverted root 77) the revert-and-save path is taken, and the full
tree phase of `rollback_rocks_dbs` performs the Postgres fetch first. -/
theorem rollback_new_tree_spec_witness :
    (rollback_new_tree 3 77 sampleTree =
      ([Ev.treeRevertLogs 3, Ev.treeSave], sampleTree.revert_logs 3, none))
    ∧ (rollback_rocks_dbs sampleEnv 3 true false sampleState =
        ⟨Ev.readBlockStateRoot 3 :: (rollback_new_tree 3 77 sampleState.tree).1,
          ⟨(rollback_new_tree 3 77 sampleState.tree).2.1, sampleState.skCache⟩,
          (rollback_new_tree 3 77 sampleState.tree).2.2⟩) :=
  ⟨((rollback_new_tree_spec sampleEnv 3 77 sampleTree sampleState).2.1
      (by decide)).1 rfl,
    (rollback_new_tree_spec sampleEnv 3 77 sampleState.tree sampleState).2.2
      rfl rfl⟩

/-- Running the tree phase a second time (on the tree the first run left on
disk) produces the same resulting tree and the same panic outcome. -/
theorem tree_phase_idem (env : ReverterEnv) (last : Nat) (t : Bool)
    (tree : ZkSyncTree) :
    (tree_phase env last t (tree_phase env last t tree).2.1).2 =
      (tree_phase env last t tree).2 := by
  by_cases ht : t
  · cases hroot : env.blockStateRoot last with
    | none => simp [tree_phase, ht, hroot]
    | some root =>
        by_cases hpath : env.treePathExists
        · by_cases hbn : tree.blockNumber ≤ last
          · simp [tree_phase, rollback_new_tree, ht, hroot, hpath, hbn]
          · by_cases hr : tree.revertedRoot last = root
            · simp [tree_phase, rollback_new_tree, ZkSyncTree.revert_logs,
                ht, hroot, hpath, hbn, hr]
            · simp [tree_phase, rollback_new_tree, ZkSyncTree.revert_logs,
                ht, hroot, hpath, hbn, hr]
        · simp [tree_phase, ht, hroot, hpath]
  · simp [tree_phase, ht]

/-- Running the cache phase a second time (on the cache the first run left on
disk) produces the same resulting cache and the same panic outcome. -/
theorem sk_cache_phase_idem (env : ReverterEnv) (last : Nat) (c : Bool)
    (cache : RocksdbStorage) :
    (sk_cache_phase env last c (sk_cache_phase env last c cache).2.1).2 =
      (sk_cache_phase env last c cache).2 := by
  by_cases hc : c
  · by_cases hpath : env.skCachePathExists
    · by_cases hg : last + 1 < cache.l1BatchNumber
      · simp [sk_cache_phase, rollback_state_keeper_cache,
          RocksdbStorage.rollback, hc, hpath, hg]
      · simp [sk_cache_phase, rollback_state_keeper_cache, hc, hpath, hg]
    · simp [sk_cache_phase, hc, hpath]
  · simp [sk_cache_phase, hc]

/-- Applying `rollback_rocks_dbs` to the state it produced yields the same
state: the RocksDB rollbacks are idempotent. -/
theorem rollback_rocks_dbs_state_idem (env : ReverterEnv) (last : Nat)
    (t c : Bool) (st : ReverterState) :
    (rollback_rocks_dbs env last t c
        (rollback_rocks_dbs env last t c st).state).state =
      (rollback_rocks_dbs env last t c st).state := by
  have htree := tree_phase_idem env last t st.tree
  have h2 : (tree_phase env last t (tree_phase env last t st.tree).2.1).2.1 =
      (tree_phase env last t st.tree).2.1 := congrArg Prod.fst htree
  have h1 : (tree_phase env last t (tree_phase env last t st.tree).2.1).2.2 =
      (tree_phase env last t st.tree).2.2 := congrArg Prod.snd htree
  simp only [rollback_rocks_dbs]
  cases hp : (tree_phase env last t st.tree).2.2 with
  | some m =>
      rw [hp] at h1
      simp [hp, h1, h2]
  | none =>
      rw [hp] at h1
      have hcache := sk_cache_phase_idem env last c st.skCache
      have hc2 : (sk_cache_phase env last c
          (sk_cache_phase env last c st.skCache).2.1).2.1 =
          (sk_cache_phase env last c st.skCache).2.1 := congrArg Prod.fst hcache
      simp [hp, h1, h2, hc2]

/-- The Postgres rollback does not modify the RocksDB state:
`rollback_stores` and `rollback_rocks_dbs` agree on the resulting state. -/
theorem rollback_stores_state (env : ReverterEnv) (last : Nat)
    (flags : BlockReverterFlags) (st : ReverterState) :
    (rollback_stores env last flags st).state =
      (rollback_rocks_dbs env last flags.tree flags.skCache st).state := by
  simp only [rollback_stores]
  cases hp : (rollback_rocks_dbs env last flags.tree flags.skCache st).panicMsg with
  | some m => simp [hp]
  | none => by_cases hpg : flags.postgres <;> simp [hp, hpg]

/-- Claim C4 (spec-modelled tree and cache semantics): the tree rollback is a
no-op when the tree is at or below the target; the cache rollback is a no-op
when the cache's batch number is at most `target + 1`; consequently applying
`rollback_db` twice with the same arguments leaves the RocksDB stores in the
same state as applying it once. -/
theorem rollback_db_idempotent (env : ReverterEnv)
    (mode : L1ExecutedBatchesRevert) (last root : Nat)
    (flags : BlockReverterFlags) (st : ReverterState)
    (tree : ZkSyncTree) (cache : RocksdbStorage) :
    (tree.blockNumber ≤ last → rollback_new_tree last root tree = ([], tree, none))
    ∧ (cache.l1BatchNumber ≤ last + 1 →
        rollback_state_keeper_cache last cache = ([], cache))
    ∧ ((rollback_db env mode last flags
          (rollback_db env mode last flags st).state).state =
        (rollback_db env mode last flags st).state) := by
  refine ⟨?_, ?_, ?_⟩
  · intro h
    simp [rollback_new_tree, h]
  · intro h
    have h' : ¬last + 1 < cache.l1BatchNumber := by omega
    simp [rollback_state_keeper_cache, h']
  · have hs : ∀ s, (rollback_stores env last flags s).state =
        (rollback_rocks_dbs env last flags.tree flags.skCache s).state :=
      fun s => rollback_stores_state env last flags s
    cases mode with
    | Allowed =>
        simp only [rollback_db, hs]
        exact rollback_rocks_dbs_state_idem env last flags.tree flags.skCache st
    | Disallowed =>
        cases hle : env.lastExecutedOnEth with
        | none => simp [rollback_db, hle]
        | some lastExec =>
            by_cases hlt : last < lastExec
            · simp [rollback_db, hle, hlt]
            · simp only [rollback_db, hle, hlt, if_false, hs]
              exact rollback_rocks_dbs_state_idem env last flags.tree
                flags.skCache st

/-- A tree already at batch 3 with target 9, and a cache at batch 5 with
target 9, both skip their rollback (witness for C4's guards); the sample
state is idempotent under a full `rollback_db`. -/
theorem rollback_db_idempotent_witness :
    (rollback_new_tree 9 77 ⟨3, 10, fun _ => 77⟩ = ([], ⟨3, 10, fun _ => 77⟩, none))
    ∧ (rollback_state_keeper_cache 9 ⟨5⟩ = ([], ⟨5⟩))
    ∧ ((rollback_db sampleEnv L1ExecutedBatchesRevert.Allowed 9
          ⟨true, true, true⟩
          (rollback_db sampleEnv L1ExecutedBatchesRevert.Allowed 9
            ⟨true, true, true⟩ sampleState).state).state =
        (rollback_db sampleEnv L1ExecutedBatchesRevert.Allowed 9
          ⟨true, true, true⟩ sampleState).state) :=
  ⟨(rollback_db_idempotent sampleEnv L1ExecutedBatchesRevert.Allowed 9 77
      ⟨true, true, true⟩ sampleState ⟨3, 10, fun _ => 77⟩ ⟨5⟩).1 (by decide),
    (rollback_db_idempotent sampleEnv L1ExecutedBatchesRevert.Allowed 9 77
      ⟨true, true, true⟩ sampleState ⟨3, 10, fun _ => 77⟩ ⟨5⟩).2.1 (by decide),
    (rollback_db_idempotent sampleEnv L1ExecutedBatchesRevert.Allowed 9 77
      ⟨true, true, true⟩ sampleState ⟨3, 10, fun _ => 77⟩ ⟨5⟩).2.2⟩

/-- The Postgres rollback trace as claim C5 words it: every deletion — the
L1-batch deletion included — keyed on the last miniblock `lastMb` of the
kept batch.  (Stated for comparison with `rollback_postgres`, which keys the
L1-batch deletion on the batch number itself.) -/
def rollback_postgres_claimed (last lastMb : Nat) : List Ev :=
  [Ev.pgBegin, Ev.pgGetMiniblockRange last,
   Ev.pgResetTransactionsState lastMb,
   Ev.pgRollbackEvents lastMb,
   Ev.pgRollbackL2ToL1Logs lastMb,
   Ev.pgRollbackTokens lastMb,
   Ev.pgRollbackFactoryDeps lastMb,
   Ev.pgRollbackStorage lastMb,
   Ev.pgRollbackStorageLogs lastMb,
   Ev.pgDeleteL1Batches lastMb,
   Ev.pgDeleteMiniblocks lastMb,
   Ev.pgCommit]

/-- Counterexample to C5 as stated: reverting to batch 1 (whose last
miniblock is 3 in the sample environment), the L1-batch deletion is keyed on
the batch number 1, not on the last miniblock 3, so the trace differs from
the claimed all-miniblock-keyed trace. -/
theorem rollback_postgres_keying_counterexample :
    (rollback_postgres sampleEnv 1).1 ≠ rollback_postgres_claimed 1 3
    ∧ Ev.pgDeleteL1Batches 1 ∈ (rollback_postgres sampleEnv 1).1
    ∧ Ev.pgDeleteL1Batches 3 ∉ (rollback_postgres sampleEnv 1).1 := by
  decide

/-- Claim C5 (amended): with the `POSTGRES` flag, all deletions are issued
inside a single transaction committed at the end, in exactly the order
transactions state, events, L2-to-L1 logs, tokens, factory deps, storage
current values, storage logs, L1 batches, miniblocks; the eight
miniblock-scoped statements are keyed on the last miniblock of the kept
batch, while the L1-batch deletion is keyed on `last_l1_batch_to_keep`
itself. -/
theorem rollback_postgres_order (env : ReverterEnv) (last first lastMb : Nat)
    (h : env.miniblockRange last = some (first, lastMb)) :
    rollback_postgres env last =
      ([Ev.pgBegin, Ev.pgGetMiniblockRange last,
        Ev.pgResetTransactionsState lastMb,
        Ev.pgRollbackEvents lastMb,
        Ev.pgRollbackL2ToL1Logs lastMb,
        Ev.pgRollbackTokens lastMb,
        Ev.pgRollbackFactoryDeps lastMb,
        Ev.pgRollbackStorage lastMb,
        Ev.pgRollbackStorageLogs lastMb,
        Ev.pgDeleteL1Batches last,
        Ev.pgDeleteMiniblocks lastMb,
        Ev.pgCommit], none) := by
  simp [rollback_postgres, h]

/-- Witness for the amended C5 at batch 1 of the sample environment. -/
theorem rollback_postgres_order_witness :
    rollback_postgres sampleEnv 1 =
      ([Ev.pgBegin, Ev.pgGetMiniblockRange 1,
        Ev.pgResetTransactionsState 3,
        Ev.pgRollbackEvents 3,
        Ev.pgRollbackL2ToL1Logs 3,
        Ev.pgRollbackTokens 3,
        Ev.pgRollbackFactoryDeps 3,
        Ev.pgRollbackStorage 3,
        Ev.pgRollbackStorageLogs 3,
        Ev.pgDeleteL1Batches 1,
        Ev.pgDeleteMiniblocks 3,
        Ev.pgCommit], none) :=
  rollback_postgres_order sampleEnv 1 2 3 rfl

/-- Claim C10: the two RocksDB path probes are asymmetric.  With the `TREE`
flag, a missing Merkle-tree path makes the run identical to one with the
tree rollback disabled (apart from the root-hash read): the tree rollback is
silently skipped and the run continues.  With the `SK_CACHE` flag, a missing
cache path panics: no cache rollback is ever performed, the cache is left
untouched, the run always ends in a panic, and — whenever the tree half did
not panic first — the panic carries the cache-path message. -/
theorem rollback_rocks_dbs_missing_paths (env : ReverterEnv) (last root : Nat)
    (st : ReverterState) :
    (env.blockStateRoot last = some root → env.treePathExists = false →
      ∀ c : Bool,
        rollback_rocks_dbs env last true c st =
          ⟨Ev.readBlockStateRoot last ::
              (rollback_rocks_dbs env last false c st).events,
            (rollback_rocks_dbs env last false c st).state,
            (rollback_rocks_dbs env last false c st).panicMsg⟩)
    ∧ (env.skCachePathExists = false → ∀ t : Bool,
        (∀ n, Ev.skCacheRollback n ∉ (rollback_rocks_dbs env last t true st).events)
        ∧ (rollback_rocks_dbs env last t true st).state.skCache = st.skCache
        ∧ (rollback_rocks_dbs env last t true st).panicMsg.isSome = true
        ∧ ((tree_phase env last t st.tree).2.2 = none →
            (rollback_rocks_dbs env last t true st).panicMsg =
              some "Path with state keeper cache DB doesn't exist")) := by
  constructor
  · intro hroot hpath c
    simp [rollback_rocks_dbs, tree_phase, hroot, hpath]
  · intro hpath t
    have hcache : sk_cache_phase env last true st.skCache =
        ([], st.skCache, some "Path with state keeper cache DB doesn't exist") := by
      simp [sk_cache_phase, hpath]
    cases hp : (tree_phase env last t st.tree).2.2 with
    | some m =>
        refine ⟨?_, ?_, ?_, ?_⟩
        · intro n hn
          simp only [rollback_rocks_dbs, hp] at hn
          simpa [Ev.isSkCacheEv] using
            (tree_phase_events_class env last t st.tree _ hn).1
        · simp [rollback_rocks_dbs, hp]
        · simp [rollback_rocks_dbs, hp]
        · intro h0
          exact Option.noConfusion h0
    | none =>
        refine ⟨?_, ?_, ?_, ?_⟩
        · intro n hn
          simp only [rollback_rocks_dbs, hp, hcache] at hn
          simp only [List.append_nil] at hn
          simpa [Ev.isSkCacheEv] using
            (tree_phase_events_class env last t st.tree _ hn).1
        · simp [rollback_rocks_dbs, hp, hcache]
        · simp [rollback_rocks_dbs, hp, hcache]
        · intro _
          simp [rollback_rocks_dbs, hp, hcache]

/-- A sample environment identical to `sampleEnv` except that neither RocksDB
path exists. -/
def samplePathlessEnv : ReverterEnv :=
  { lastExecutedOnEth := some 5
    blockStateRoot := fun _ => some 77
    miniblockRange := fun b => some (2 * b, 2 * b + 1)
    treePathExists := false
    skCachePathExists := false }

/-- Witness for C10: with a missing tree path the run continues as if the
tree flag were off; with a missing cache path it panics with the cache-path
message. -/
theorem rollback_rocks_dbs_missing_paths_witness :
    (rollback_rocks_dbs samplePathlessEnv 3 true false sampleState =
      ⟨Ev.readBlockStateRoot 3 ::
          (rollback_rocks_dbs samplePathlessEnv 3 false false sampleState).events,
        (rollback_rocks_dbs samplePathlessEnv 3 false false sampleState).state,
        (rollback_rocks_dbs samplePathlessEnv 3 false false sampleState).panicMsg⟩)
    ∧ (rollback_rocks_dbs samplePathlessEnv 3 false true sampleState).panicMsg =
        some "Path with state keeper cache DB doesn't exist" :=
  ⟨(rollback_rocks_dbs_missing_paths samplePathlessEnv 3 77 sampleState).1
      rfl rfl false,
    ((rollback_rocks_dbs_missing_paths samplePathlessEnv 3 77 sampleState).2
      rfl false).2.2.2 rfl⟩

/-- Polling through `k` empty answers and then a receipt: the loop sleeps 5 s
per empty answer and then settles on the receipt's status. -/
theorem pollForReceipt_after_waits (k : Nat) (r : TransactionReceipt)
    (rest : List (Option TransactionReceipt)) :
    pollForReceipt (List.replicate k none ++ some r :: rest) =
      (List.replicate k (EthEv.sleepSecs 5),
        if r.status = some 1 then PollResult.ok
        else PollResult.panicked "revert transaction failed") := by
  induction k with
  | zero =>
      simp only [List.replicate, List.nil_append, pollForReceipt]
      split <;> rfl
  | succ n ih => simp [pollForReceipt, List.replicate_succ, ih]

/-- Claim C6: `send_ethereum_revert_transaction` first signs and submits a
`revertBlocks(last_l1_batch_to_keep)` call addressed to the validator
timelock with `max_priority_fee_per_gas` the given priority fee,
`max_fee_per_gas` the pending base fee plus that priority fee, a 5,000,000
gas limit, the client's chain id and the given nonce; it then polls
`transaction_receipt`, sleeping 5 s after every empty poll, until a receipt
exists, returning normally when its status is 1 and panicking otherwise. -/
theorem send_ethereum_revert_transaction_spec (cfg : EthConfig) (env : EthEnv)
    (last fee nonce : Nat) :
    ((send_ethereum_revert_transaction cfg env last fee nonce).1.head? =
      some (EthEv.submit
        { toAddr := cfg.validatorTimelockAddr
          data := CallData.revertBlocks last
          chainId := env.chainId
          nonce := nonce
          maxPriorityFeePerGas := fee
          maxFeePerGas := env.pendingBaseFee + fee
          gas := 5000000 }))
    ∧ (∀ k r rest, env.receipts = List.replicate k none ++ some r :: rest →
        send_ethereum_revert_transaction cfg env last fee nonce =
          (EthEv.submit
            { toAddr := cfg.validatorTimelockAddr
              data := CallData.revertBlocks last
              chainId := env.chainId
              nonce := nonce
              maxPriorityFeePerGas := fee
              maxFeePerGas := env.pendingBaseFee + fee
              gas := 5000000 } :: List.replicate k (EthEv.sleepSecs 5),
            if r.status = some 1 then PollResult.ok
            else PollResult.panicked "revert transaction failed")) := by
  constructor
  · simp [send_ethereum_revert_transaction]
  · intro k r rest h
    simp [send_ethereum_revert_transaction, h, pollForReceipt_after_waits]

/-- A sample L1 environment: chain id 271, pending base fee 100, one empty
poll followed by a successful receipt. -/
def sampleEthEnv : EthEnv :=
  { chainId := 271, pendingBaseFee := 100, receipts := [none, some ⟨some 1⟩] }

/-- Witness for C6: reverting to batch 7 with priority fee 2 and nonce 5
submits the expected parameters, sleeps once and returns normally. -/
theorem send_ethereum_revert_transaction_spec_witness :
    send_ethereum_revert_transaction ⟨1234⟩ sampleEthEnv 7 2 5 =
      (EthEv.submit
        { toAddr := 1234
          data := CallData.revertBlocks 7
          chainId := 271
          nonce := 5
          maxPriorityFeePerGas := 2
          maxFeePerGas := 100 + 2
          gas := 5000000 } :: List.replicate 1 (EthEv.sleepSecs 5),
        if (some 1 : Option Nat) = some 1 then PollResult.ok
        else PollResult.panicked "revert transaction failed") :=
  (send_ethereum_revert_transaction_spec ⟨1234⟩ sampleEthEnv 7 2 5).2
    1 ⟨some 1⟩ [] rfl

/-- Claim C9: a `ProofGenerated` report whose job row exists serializes the
proof and saves it inside one transaction that also looks the job row up
before committing; when no job row exists the reporter panics and the
transaction is never committed; and a `Failure` report calls
`save_proof_error` with the configured `max_attempts`. -/
theorem send_report_spec (serialize : Nat → List Nat) (db : ProverDb)
    (maxAttempts : Nat) (processedBy : String) :
    (∀ id dur proof idx meta, db.jobs id = some meta →
      send_report serialize db maxAttempts processedBy
          (JobResult.ProofGenerated id dur proof idx) =
        ([ProverEv.getJob id, ProverEv.beginTx,
          ProverEv.saveProof id (serialize proof) processedBy,
          ProverEv.getJob id, ProverEv.commitTx], none))
    ∧ (∀ id dur proof idx, db.jobs id = none →
        (send_report serialize db maxAttempts processedBy
            (JobResult.ProofGenerated id dur proof idx)).2.isSome = true
        ∧ ProverEv.commitTx ∉
            (send_report serialize db maxAttempts processedBy
              (JobResult.ProofGenerated id dur proof idx)).1)
    ∧ (∀ id error,
        send_report serialize db maxAttempts processedBy
            (JobResult.Failure id error) =
          ([ProverEv.saveProofError id error maxAttempts], none)) := by
  refine ⟨?_, ?_, ?_⟩
  · intro id dur proof idx meta h
    simp [send_report, handle_successful_proof_generation, h]
  · intro id dur proof idx h
    refine ⟨?_, ?_⟩
    · simp [send_report, handle_successful_proof_generation, h]
    · simp [send_report, handle_successful_proof_generation, h]
  · intro id error
    simp [send_report]

/-- A sample prover database: only job 4 exists, with circuit type "main". -/
def sampleProverDb : ProverDb :=
  { jobs := fun id => if id = 4 then some ⟨"main"⟩ else none }

/-- Witness for C9: job 4 commits the saved proof; job 9 panics without
committing; a failure report saves the error with `max_attempts = 3`. -/
theorem send_report_spec_witness :
    (send_report (fun p => [p]) sampleProverDb 3 "pod"
        (JobResult.ProofGenerated 4 11 42 0) =
      ([ProverEv.getJob 4, ProverEv.beginTx, ProverEv.saveProof 4 [42] "pod",
        ProverEv.getJob 4, ProverEv.commitTx], none))
    ∧ ((send_report (fun p => [p]) sampleProverDb 3 "pod"
          (JobResult.ProofGenerated 9 11 42 0)).2.isSome = true
        ∧ ProverEv.commitTx ∉
            (send_report (fun p => [p]) sampleProverDb 3 "pod"
              (JobResult.ProofGenerated 9 11 42 0)).1)
    ∧ (send_report (fun p => [p]) sampleProverDb 3 "pod"
          (JobResult.Failure 9 "boom") =
        ([ProverEv.saveProofError 9 "boom" 3], none)) :=
  ⟨(send_report_spec (fun p => [p]) sampleProverDb 3 "pod").1
      4 11 42 0 ⟨"main"⟩ (by simp [sampleProverDb]),
    (send_report_spec (fun p => [p]) sampleProverDb 3 "pod").2.1
      9 11 42 0 (by simp [sampleProverDb]),
    (send_report_spec (fun p => [p]) sampleProverDb 3 "pod").2.2 9 "boom"⟩

/-- Claim C8 (spec-modelled): when the I/O port supplies strictly increasing
timestamps, every pair of consecutive miniblocks — the fictive trailing one
at batch seal included, and across batch boundaries — has successor number
and strictly greater timestamp. -/
theorem miniblock_monotonic (n : Nat) (ts : List Nat)
    (h : List.Chain' (· < ·) ts) :
    List.Chain' (fun a b : Miniblock =>
      b.number = a.number + 1 ∧ a.timestamp < b.timestamp)
      (mkMiniblocks n ts) := by
  induction ts generalizing n with
  | nil => simp [mkMiniblocks]
  | cons t1 rest ih =>
      cases rest with
      | nil => simp [mkMiniblocks]
      | cons t2 rest2 =>
          rw [List.chain'_cons] at h
          simp only [mkMiniblocks]
          rw [List.chain'_cons]
          refine ⟨⟨rfl, h.1⟩, ?_⟩
          simpa [mkMiniblocks] using ih (n + 1) h.2

/-- Witness for C8: three port timestamps 1 < 3 < 7 starting at number 5. -/
theorem miniblock_monotonic_witness :
    List.Chain' (fun a b : Miniblock =>
      b.number = a.number + 1 ∧ a.timestamp < b.timestamp)
      (mkMiniblocks 5 [1, 3, 7]) :=
  miniblock_monotonic 5 [1, 3, 7] (by
    rw [List.chain'_cons]
    refine ⟨by omega, ?_⟩
    rw [List.chain'_cons]
    exact ⟨by omega, List.chain'_singleton 7⟩)

/-! ## State Keeper lemmas -/

/-- `keeperSteps` on the empty fetch list. -/
theorem keeperSteps_nil (slots : Nat) (s : KState) :
    keeperSteps slots [] s = s := rfl

/-- `keeperSteps` peels one fetch. -/
theorem keeperSteps_cons (slots : Nat) (f : Nat × ExecOutcome)
    (F : List (Nat × ExecOutcome)) (s : KState) :
    keeperSteps slots (f :: F) s = keeperSteps slots F (keeperStep slots s f) :=
  rfl

/-- `keeperSteps` over a concatenation. -/
theorem keeperSteps_append (slots : Nat) (A B : List (Nat × ExecOutcome))
    (s : KState) :
    keeperSteps slots (A ++ B) s = keeperSteps slots B (keeperSteps slots A s) :=
  List.foldl_append _ _ _ _

/-- Each step records exactly one `execute_next_tx` call. -/
theorem keeperStep_execs (slots : Nat) (s : KState) (f : Nat × ExecOutcome) :
    (keeperStep slots s f).execs = s.execs ++ [f.1] := by
  cases hf : f.2 <;> simp [keeperStep, hf]
  split <;> rfl

/-- The execution trace of a run is the fetched transactions, in order. -/
theorem keeperSteps_execs (slots : Nat) (F : List (Nat × ExecOutcome))
    (s : KState) :
    (keeperSteps slots F s).execs = s.execs ++ F.map Prod.fst := by
  induction F generalizing s with
  | nil => simp [keeperSteps]
  | cons f F ih =>
      rw [keeperSteps_cons, ih, keeperStep_execs]
      simp

/-- Total number of copies of transaction `t` held by the keeper state:
inside sealed batches plus inside the open batch. -/
def tmass (t : Nat) (s : KState) : Nat :=
  (s.sealedBatches.map (List.count t)).sum + s.cur.count t

/-- Number of successful executions of transaction `t` in a fetch list. -/
def successCount (t : Nat) : List (Nat × ExecOutcome) → Nat
  | [] => 0
  | f :: F =>
      (if f.1 = t ∧ f.2 = ExecOutcome.success then 1 else 0) + successCount t F

/-- A fetch list that never mentions `t` contains no successful execution of
`t`. -/
theorem successCount_eq_zero (t : Nat) (F : List (Nat × ExecOutcome))
    (h : ∀ f ∈ F, f.1 ≠ t) : successCount t F = 0 := by
  induction F with
  | nil => rfl
  | cons f F ih =>
      have hf : f.1 ≠ t := h f (List.mem_cons_self f F)
      simp [successCount, hf]
      exact ih fun g hg => h g (List.mem_cons_of_mem f hg)

/-- One step changes the total mass of `t` by one exactly when it is a
successful execution of `t` (a rollback-and-seal moves the open batch into
the sealed list without adding or dropping copies). -/
theorem keeperStep_tmass (slots : Nat) (s : KState) (f : Nat × ExecOutcome)
    (t : Nat) :
    tmass t (keeperStep slots s f) =
      tmass t s + (if f.1 = t ∧ f.2 = ExecOutcome.success then 1 else 0) := by
  cases hf : f.2
  case success =>
      simp only [keeperStep, hf]
      split
      · by_cases hft : f.1 = t
        · simp [tmass, hft, List.count_append, List.count_cons]
          omega
        · simp [tmass, hft, List.count_append, List.count_cons]
      · by_cases hft : f.1 = t
        · simp [tmass, hft, List.count_append, List.count_cons]
          omega
        · simp [tmass, hft, List.count_append, List.count_cons]
  case tipOutOfGas =>
      simp [keeperStep, hf, tmass, List.count_append]
  case rejected =>
      simp [keeperStep, hf, tmass]

/-- Run version of `keeperStep_tmass`. -/
theorem keeperSteps_tmass (slots t : Nat) (F : List (Nat × ExecOutcome))
    (s : KState) :
    tmass t (keeperSteps slots F s) = tmass t s + successCount t F := by
  induction F generalizing s with
  | nil => simp [keeperSteps, successCount]
  | cons f F ih =>
      rw [keeperSteps_cons, ih, keeperStep_tmass]
      simp [successCount]
      omega

/-- The invariant carried while tracking a single transaction `t` after its
re-delivery: `t` is held exactly once (in a sealed batch or the open batch),
every sealed batch containing it has it in first position, and if the open
batch contains it, it is in first position there. -/
def KInv (t : Nat) (s : KState) : Prop :=
  ((s.sealedBatches.map (List.count t)).sum + s.cur.count t = 1)
  ∧ (∀ b ∈ s.sealedBatches, t ∈ b → b.head? = some t)
  ∧ (t ∈ s.cur → s.cur.head? = some t)

/-- A step on a transaction other than `t` preserves the invariant. -/
theorem keeperStep_KInv (slots : Nat) (s : KState) (f : Nat × ExecOutcome)
    (t : Nat) (hne : f.1 ≠ t) (h : KInv t s) : KInv t (keeperStep slots s f) := by
  obtain ⟨hsum, hsealed, hcur⟩ := h
  have hhead : t ∈ s.cur ++ [f.1] → (s.cur ++ [f.1]).head? = some t := by
    intro hm
    rcases List.mem_append.mp hm with hm | hm
    · have hne' : s.cur ≠ [] := List.ne_nil_of_mem hm
      rw [List.head?_append_of_ne_nil _ hne']
      exact hcur hm
    · simp at hm
      exact absurd hm.symm hne
  have hcnt : (s.cur ++ [f.1]).count t = s.cur.count t := by
    simp [List.count_append, List.count_singleton', hne]
  cases hf : f.2
  case rejected =>
      exact ⟨by simpa [keeperStep, hf] using hsum,
        by simpa [keeperStep, hf] using hsealed,
        by simpa [keeperStep, hf] using hcur⟩
  case tipOutOfGas =>
      refine ⟨?_, ?_, ?_⟩
      · simp only [keeperStep, hf]
        simp [List.count_nil]
        omega
      · simp only [keeperStep, hf]
        intro b hb
        rcases List.mem_append.mp hb with hb | hb
        · exact hsealed b hb
        · simp at hb
          subst hb
          exact hcur
      · simp [keeperStep, hf]
  case success =>
      simp only [keeperStep, hf]
      split
      · refine ⟨?_, ?_, ?_⟩
        · simp [hcnt]
          omega
        · intro b hb
          rcases List.mem_append.mp hb with hb | hb
          · exact hsealed b hb
          · simp at hb
            subst hb
            exact hhead
        · simp
      · refine ⟨?_, ?_, ?_⟩
        · simp [hcnt]
          omega
        · exact hsealed
        · exact hhead

/-- A run over fetches never mentioning `t` preserves the invariant. -/
theorem keeperSteps_KInv (slots : Nat) (F : List (Nat × ExecOutcome))
    (s : KState) (t : Nat) (hF : ∀ f ∈ F, f.1 ≠ t) (h : KInv t s) :
    KInv t (keeperSteps slots F s) := by
  induction F generalizing s with
  | nil => exact h
  | cons f F ih =>
      rw [keeperSteps_cons]
      exact ih (keeperStep slots s f)
        (fun g hg => hF g (List.mem_cons_of_mem f hg))
        (keeperStep_KInv slots s f t (hF f (List.mem_cons_self f F)) h)

/-- The closing batch seal preserves the invariant and empties the open
batch. -/
theorem keeperFinish_KInv (t : Nat) (s : KState) (h : KInv t s) :
    KInv t (keeperFinish s) := by
  obtain ⟨hsum, hsealed, hcur⟩ := h
  refine ⟨?_, ?_, ?_⟩
  · simp [keeperFinish]
    omega
  · intro b hb
    rcases List.mem_append.mp hb with hb | hb
    · exact hsealed b hb
    · simp at hb
      subst hb
      exact hcur
  · simp [keeperFinish]

/-- Every element of a list of naturals summing to zero is zero. -/
theorem nat_sum_eq_zero {l : List Nat} (h : l.sum = 0) : ∀ x ∈ l, x = 0 := by
  induction l with
  | nil => simp
  | cons a l ih =>
      simp only [List.sum_cons, Nat.add_eq_zero] at h
      intro x hx
      rcases List.mem_cons.mp hx with rfl | hx
      · exact h.1
      · exact ih h.2 x hx

/-- After a state holding no copy of `t` rolls `t` back (sealing the batch
without it) and then re-executes it successfully, the invariant holds: `t`
sits exactly once, at the head of the batch opened after the seal. -/
theorem KInv_after_requeue (slots t : Nat) (sA : KState)
    (hc : sA.cur.count t = 0)
    (hb : ∀ b ∈ sA.sealedBatches, List.count t b = 0) :
    KInv t (keeperStep slots
      (keeperStep slots sA (t, ExecOutcome.tipOutOfGas))
      (t, ExecOutcome.success)) := by
  have hsum0 : (sA.sealedBatches.map (List.count t)).sum = 0 :=
    List.sum_eq_zero (by
      intro x hx
      obtain ⟨b, hb', rfl⟩ := List.mem_map.mp hx
      exact hb b hb')
  have hmem : ∀ b ∈ sA.sealedBatches, t ∉ b :=
    fun b hb' => List.count_eq_zero.mp (hb b hb')
  have hmemc : t ∉ sA.cur := List.count_eq_zero.mp hc
  by_cases hs : slots ≤ 1
  · refine ⟨?_, ?_, ?_⟩
    · simp [keeperStep, hs, hsum0, hc]
    · intro b hbmem
      simp only [keeperStep] at hbmem
      simp only [List.nil_append, List.length_singleton, hs, if_true] at hbmem
      rcases List.mem_append.mp hbmem with hbmem | hbmem
      · rcases List.mem_append.mp hbmem with hbmem | hbmem
        · exact fun ht => absurd ht (hmem b hbmem)
        · simp at hbmem
          subst hbmem
          exact fun ht => absurd ht hmemc
      · simp at hbmem
        subst hbmem
        intro
        rfl
    · simp [keeperStep, hs]
  · refine ⟨?_, ?_, ?_⟩
    · simp [keeperStep, hs, hsum0, hc]
    · intro b hbmem
      simp only [keeperStep] at hbmem
      simp only [List.nil_append, List.length_singleton, hs, if_false] at hbmem
      rcases List.mem_append.mp hbmem with hbmem | hbmem
      · exact fun ht => absurd ht (hmem b hbmem)
      · simp at hbmem
        subst hbmem
        exact fun ht => absurd ht hmemc
    · simp [keeperStep, hs]

/-- Claim C7 (spec-modelled keeper loop): in a trace where transaction `t` is
fetched, returns `BootloaderTipOutOfGas`, is re-delivered by the I/O port as
the very next fetch and then succeeds — and is offered at no other point —
the keeper executes `t` exactly twice, seals the rejecting batch without it
(no deltas from `t`), and `t` ends up in exactly one sealed batch, as the
first transaction of the batch opened after the seal. -/
theorem keeper_tip_out_of_gas (slots t : Nat) (A B : List (Nat × ExecOutcome))
    (hA : ∀ f ∈ A, f.1 ≠ t) (hB : ∀ f ∈ B, f.1 ≠ t) :
    ((keeperRun slots (A ++ (t, ExecOutcome.tipOutOfGas) ::
        (t, ExecOutcome.success) :: B) keeperInit).execs.count t = 2)
    ∧ (t ∉ (keeperSteps slots A keeperInit).cur)
    ∧ (((keeperRun slots (A ++ (t, ExecOutcome.tipOutOfGas) ::
          (t, ExecOutcome.success) :: B) keeperInit).sealedBatches.map
            (List.count t)).sum = 1)
    ∧ (∀ b ∈ (keeperRun slots (A ++ (t, ExecOutcome.tipOutOfGas) ::
          (t, ExecOutcome.success) :: B) keeperInit).sealedBatches,
        t ∈ b → b.head? = some t) := by
  set F := A ++ (t, ExecOutcome.tipOutOfGas) :: (t, ExecOutcome.success) :: B
    with hF
  have hmassA : tmass t (keeperSteps slots A keeperInit) = 0 := by
    rw [keeperSteps_tmass, successCount_eq_zero t A hA]
    simp [tmass, keeperInit]
  have hcA : (keeperSteps slots A keeperInit).cur.count t = 0 := by
    unfold tmass at hmassA
    omega
  have hbA : ∀ b ∈ (keeperSteps slots A keeperInit).sealedBatches,
      List.count t b = 0 := by
    intro b hb
    unfold tmass at hmassA
    have hz : (((keeperSteps slots A keeperInit).sealedBatches.map
        (List.count t)).sum) = 0 := by omega
    exact nat_sum_eq_zero hz _ (List.mem_map_of_mem (List.count t) hb)
  have hrun : keeperSteps slots F keeperInit =
      keeperSteps slots B (keeperStep slots
        (keeperStep slots (keeperSteps slots A keeperInit)
          (t, ExecOutcome.tipOutOfGas))
        (t, ExecOutcome.success)) := by
    rw [hF, keeperSteps_append, keeperSteps_cons, keeperSteps_cons]
  have hinv : KInv t (keeperSteps slots F keeperInit) := by
    rw [hrun]
    exact keeperSteps_KInv slots B _ t hB
      (KInv_after_requeue slots t _ hcA hbA)
  have hfin : KInv t (keeperRun slots F keeperInit) :=
    keeperFinish_KInv t _ hinv
  obtain ⟨hfsum, hfsealed, _⟩ := hfin
  have hAm : (A.map Prod.fst).count t = 0 :=
    List.count_eq_zero.mpr (by
      intro hm
      obtain ⟨f, hf, hfe⟩ := List.mem_map.mp hm
      exact hA f hf hfe)
  have hBm : (B.map Prod.fst).count t = 0 :=
    List.count_eq_zero.mpr (by
      intro hm
      obtain ⟨f, hf, hfe⟩ := List.mem_map.mp hm
      exact hB f hf hfe)
  refine ⟨?_, List.count_eq_zero.mp hcA, ?_, hfsealed⟩
  · have hex : (keeperRun slots F keeperInit).execs = F.map Prod.fst := by
      show (keeperSteps slots F keeperInit).execs = F.map Prod.fst
      rw [keeperSteps_execs]
      simp [keeperInit]
    rw [hex, hF]
    simp [List.count_append, List.count_cons, hAm, hBm]
  · have hcur0 : (keeperRun slots F keeperInit).cur = [] := rfl
    rw [hcur0] at hfsum
    simpa using hfsum

/-- Witness for C7: with two slots, transaction 1 succeeds, transaction 2
overflows the bootloader tip and is retried, transaction 3 follows; the run
executes tx 2 twice, seals batch `[1]` without it, and tx 2 heads the next
sealed batch `[2, 3]`. -/
theorem keeper_tip_out_of_gas_witness :
    ((keeperRun 2 ([(1, ExecOutcome.success)] ++
        (2, ExecOutcome.tipOutOfGas) :: (2, ExecOutcome.success) ::
        [(3, ExecOutcome.success)]) keeperInit).execs.count 2 = 2)
    ∧ (2 ∉ (keeperSteps 2 [(1, ExecOutcome.success)] keeperInit).cur)
    ∧ (((keeperRun 2 ([(1, ExecOutcome.success)] ++
          (2, ExecOutcome.tipOutOfGas) :: (2, ExecOutcome.success) ::
          [(3, ExecOutcome.success)]) keeperInit).sealedBatches.map
            (List.count 2)).sum = 1)
    ∧ (∀ b ∈ (keeperRun 2 ([(1, ExecOutcome.success)] ++
          (2, ExecOutcome.tipOutOfGas) :: (2, ExecOutcome.success) ::
          [(3, ExecOutcome.success)]) keeperInit).sealedBatches,
        2 ∈ b → b.head? = some 2) :=
  keeper_tip_out_of_gas 2 2 [(1, ExecOutcome.success)]
    [(3, ExecOutcome.success)] (by decide) (by decide)
